import Mathlib

/-!
Verification of `g10/encode.c` (GnuPG message encryption pipeline).

The C file is shallowly embedded: external collaborators that the spec
declares out of scope (iobuf I/O, packet serialization, the cryptographic
primitives, key-list construction) are abstracted as environment fields
recording their outcome for one run, while the whole control flow of
`encode.c` — branch order, error propagation, the sequence of packets and
filter pushes written to the output stream, and the cleanup performed on
each exit path — is translated faithfully.  Observable behaviour of a run
is collected into result records (`SimpleResult`, `CryptResult`) holding
the returned error code, the ordered trace of output events, the fate of
the input/output streams, status-line events, and resource-release flags.
-/

namespace GnuPG

/- Error codes from `errors.h`, which is not under src/; encode.c uses them
   only as distinct nonzero return values, so the particular numerals are
   irrelevant to every property proved below. -/

def G10ERR_OPEN_FILE : Nat := 53

def G10ERR_PASSPHRASE : Nat := 17

def G10ERR_WRITE_FILE : Nat := 54

/- OpenPGP algorithm identifiers (cipher.h, standard registry values). -/

def CIPHER_ALGO_IDEA : Nat := 1

def CIPHER_ALGO_3DES : Nat := 2

def CIPHER_ALGO_CAST5 : Nat := 3

def PUBKEY_ALGO_RSA : Nat := 1

def PUBKEY_ALGO_RSA_E : Nat := 2

def PUBKEY_ALGO_RSA_S : Nat := 3

def PUBKEY_ALGO_ELGAMAL_E : Nat := 16

def PUBKEY_ALGO_DSA : Nat := 17

/-- Threshold from iobuf.h above which a file length can no longer be encoded
    as a fixed literal-packet length (`IOBUF_FILELENGTH_LIMIT`, `0x7fffffff`). -/
def IOBUF_FILELENGTH_LIMIT : Nat := 0x7fffffff

/-- Modelled from the spec: the fixed default cipher algorithm constant
    (`DEFAULT_CIPHER_ALGO`, defined in `main.h`, which is not under src/).
    The spec describes a single "fixed default algorithm" fallback, and the
    in-src fallback of `encode_crypt` names `CIPHER_ALGO_3DES`. -/
def DEFAULT_CIPHER_ALGO : Nat := CIPHER_ALGO_3DES

/-- The is_RSA test macro from packet.h (not under src/): RSA in any of its
    three algorithm-id flavours. -/
def is_RSA (a : Nat) : Bool :=
  (a == PUBKEY_ALGO_RSA) || (a == PUBKEY_ALGO_RSA_E) || (a == PUBKEY_ALGO_RSA_S)

/-- A recipient public key as encode.c reads it: algorithm id, modulus size,
    whether the key advertises the MDC feature, its advertised symmetric-cipher
    and compression preference lists, and a key identifier. -/
structure PKTpublicKey where
  pubkey_algo : Nat
  nbits : Nat
  mdc_feature : Bool
  symPrefs : List Nat
  zipPrefs : List Nat
  keyid : Nat
  deriving DecidableEq

/-- Modelled from the spec: `select_algo_from_prefs` (pkclist.c, not under
    src/) returns the most-preferred algorithm lying in the intersection of
    all recipients' advertised preference lists of the given kind (ranked by
    the first recipient's order), or `-1` when no common algorithm exists. -/
def select_algo_from_prefs (pks : List PKTpublicKey) (prefOf : PKTpublicKey → List Nat) : Int :=
  match pks with
  | [] => -1
  | pk :: _ =>
    match (prefOf pk).find? (fun a => pks.all (fun q => (prefOf q).elem a)) with
    | some a => (a : Int)
    | none => -1

/-- Modelled from the spec: `select_mdc_from_pklist` (pkclist.c, not under
    src/) enables integrity protection iff every recipient key in the list
    supports the MDC feature. -/
def select_mdc_from_pklist (pks : List PKTpublicKey) : Bool :=
  pks.all (·.mdc_feature)

/-- Fate of an iobuf-backed stream at the end of a run. -/
inductive OutFate where
  | notOpened
  | canceled
  | closed
  deriving DecidableEq

/-- Observable events written to (or pushed onto) the output stream, in
    stream order. -/
inductive Ev where
  | symkeyPkt (cipher_algo s2k_mode : Nat)
  | pubkeyEnc (keyid pubkey_algo : Nat)
  | literalPkt (len : Nat) (new_ctb : Bool) (textmode : Bool)
  | rawCopy
  | cipherPushed
  | compressPushed
  | armorPushed
  | data (n : Nat)
  deriving DecidableEq

/-- True for events that are packets / payload bytes on the wire (as opposed
    to filter-stack pushes). -/
def Ev.isPacket : Ev → Bool
  | .symkeyPkt _ _ => true
  | .pubkeyEnc _ _ => true
  | .literalPkt _ _ _ => true
  | .rawCopy => true
  | .data _ => true
  | _ => false

def Ev.isSymkeyPkt : Ev → Bool
  | .symkeyPkt _ _ => true
  | _ => false

/-- The DEK fields that encode.c sets (key bytes themselves are opaque). -/
structure DEKinfo where
  algo : Nat
  use_mdc : Bool
  deriving DecidableEq

/-- Loop body of `write_pubkey_enc_from_list`: for each recipient, first
    `pubkey_encrypt` (outcome `wrap 0`), then `build_packet` (outcome
    `bld 0`); on the first nonzero outcome the function returns it at once;
    recursion shifts the oracle index.  Returns the C return code and the
    pubkey-enc packets actually written. -/
def wpe_go (wrap bld : Nat → Nat) : List PKTpublicKey → Nat × List Ev
  | [] => (0, [])
  | pk :: rest =>
    if wrap 0 ≠ 0 then (wrap 0, [])
    else if bld 0 ≠ 0 then (bld 0, [])
    else
      let r := wpe_go (fun i => wrap (i + 1)) (fun i => bld (i + 1)) rest
      (r.1, Ev.pubkeyEnc pk.keyid pk.pubkey_algo :: r.2)

/-- Function `write_pubkey_enc_from_list` (encode.c lines 522–581): wrap the DEK for
    each recipient of the list in order and write one pubkey-enc packet per
    recipient; abort on the first failure, returning its error code. -/
def write_pubkey_enc_from_list (wrap bld : Nat → Nat) (pks : List PKTpublicKey) :
    Nat × List Ev :=
  wpe_go wrap bld pks

lemma wpe_go_all_ok (pks : List PKTpublicKey) :
    ∀ wrap bld : Nat → Nat, (∀ i, i < pks.length → wrap i = 0 ∧ bld i = 0) →
    wpe_go wrap bld pks =
      (0, pks.map fun pk => Ev.pubkeyEnc pk.keyid pk.pubkey_algo) := by
  induction pks with
  | nil => intro wrap bld _; rfl
  | cons pk rest ih =>
    intro wrap bld h
    have h0 := h 0 (Nat.succ_pos _)
    have hrest : ∀ i, i < rest.length →
        (fun i => wrap (i + 1)) i = 0 ∧ (fun i => bld (i + 1)) i = 0 := by
      intro i hi
      exact h (i + 1) (Nat.succ_lt_succ hi)
    simp [wpe_go, h0.1, h0.2, ih _ _ hrest]

lemma wpe_go_first_fail (pks : List PKTpublicKey) :
    ∀ (wrap bld : Nat → Nat) (k : Nat), k < pks.length →
    (∀ i, i < k → wrap i = 0 ∧ bld i = 0) →
    (if wrap k ≠ 0 then wrap k else bld k) ≠ 0 →
    wpe_go wrap bld pks =
      ((if wrap k ≠ 0 then wrap k else bld k),
       (pks.take k).map fun pk => Ev.pubkeyEnc pk.keyid pk.pubkey_algo) := by
  induction pks with
  | nil => intro wrap bld k hk; exact absurd hk (Nat.not_lt_zero k)
  | cons pk rest ih =>
    intro wrap bld k hk hpre hfail
    cases k with
    | zero =>
      by_cases hw : wrap 0 ≠ 0
      · rw [if_pos hw] at hfail ⊢
        simp [wpe_go, hw]
      · rw [if_neg hw] at hfail ⊢
        push_neg at hw
        simp [wpe_go, hw, hfail]
    | succ k =>
      have h0 := hpre 0 (Nat.succ_pos _)
      have hpre' : ∀ i, i < k →
          (fun i => wrap (i + 1)) i = 0 ∧ (fun i => bld (i + 1)) i = 0 := by
        intro i hi
        exact hpre (i + 1) (Nat.succ_lt_succ hi)
      have hk' : k < rest.length := Nat.lt_of_succ_lt_succ hk
      have hrec := ih (fun i => wrap (i + 1)) (fun i => bld (i + 1)) k hk' hpre'
        (by simpa using hfail)
      simp [wpe_go, h0.1, h0.2, hrec]

/-- The fields of the global `opt` structure (options.h) that encode.c reads.
    `def_cipher_algo = 0` and `set_filesize = 0` mean "not configured", as in
    the C truth-value tests. -/
structure Opt where
  compress : Bool
  rfc1991 : Bool
  textmode : Bool
  armor : Bool
  pgp2 : Bool
  def_cipher_algo : Nat
  def_digest_algo : Nat
  s2k_mode : Nat
  s2k_digest_algo : Nat
  s2k_cipher_algo : Nat
  set_filename : Option String
  set_filesize : Nat
  no_literal : Bool
  throw_keyid : Bool
  verbose : Bool
  deriving DecidableEq

/-- Outcomes of the external collaborators during one `encode_simple` run:
    `is_file_compressed` (probe result and its error code), `iobuf_open`,
    `passphrase_to_dek` (`none` = NULL return, `some k` = a DEK with key
    length `k`), `open_outfile`, `iobuf_get_filelength`, and the
    `build_packet` / copy-loop outcomes. -/
structure SimpleEnv where
  file_compressed : Bool
  file_compressed_rc : Nat
  inp_ok : Bool
  ptdKeylen : Option Nat
  open_outfile_rc : Nat
  filelength : Nat
  build_symkey_rc : Nat
  build_literal_rc : Nat
  copy_ok : Bool
  deriving DecidableEq

/-- Observable outcome of one `encode_simple` run.  `inpFate`: `none` = the
    input was never opened, `some true` = `iobuf_close(inp)`, `some false` =
    `iobuf_cancel(inp)`.  `statusEnd` records whether
    `write_status(STATUS_END_ENCRYPTION)` ran. -/
structure SimpleResult where
  rc : Nat
  events : List Ev
  statusEnd : Bool
  outFate : OutFate
  inpFate : Option Bool
  dek : Option DEKinfo
  ptLen : Option Nat
  ptNewCtb : Option Bool
  dekFreed : Bool
  s2kFreed : Bool
  deriving DecidableEq

/-- The declared-length policy shared by `encode_simple` (lines 183–193) and
    `encode_crypt` (lines 381–390): for a named file in binary mode take the
    obtained file length, degrading to 0 at or above
    `IOBUF_FILELENGTH_LIMIT`; for stdin or text mode take `--set-filesize`
    (0 when not configured). -/
def literal_filesize (textmode : Bool) (set_fsize : Nat)
    (filename : Option String) (filelength : Nat) : Nat :=
  match filename with
  | some _ =>
    if textmode then set_fsize
    else if filelength ≥ IOBUF_FILELENGTH_LIMIT then 0
    else filelength
  | none => set_fsize

/-- Function `encode_simple` (encode.c lines 68–249).  `mode = true` is symmetric
    encryption (`encode_symmetric`), `mode = false` store-only
    (`encode_store`).  Filter pushes on the input side (`text_filter`) and
    the cipher-context `datalen` field are not traced; everything written to
    `out`, every early return, and the `leave` cleanup are. -/
def encode_simple (opt : Opt) (env : SimpleEnv) (filename : Option String)
    (mode : Bool) : SimpleResult :=
  let do_compress0 := opt.compress && !opt.rfc1991
  let do_compress := if env.file_compressed then false else do_compress0
  if env.file_compressed_rc ≠ 0 then
    { rc := env.file_compressed_rc, events := [], statusEnd := false,
      outFate := .notOpened, inpFate := none, dek := none, ptLen := none,
      ptNewCtb := none, dekFreed := false, s2kFreed := false }
  else if !env.inp_ok then
    { rc := G10ERR_OPEN_FILE, events := [], statusEnd := false,
      outFate := .notOpened, inpFate := none, dek := none, ptLen := none,
      ptNewCtb := none, dekFreed := false, s2kFreed := false }
  else
    let dekAlgo := if opt.def_cipher_algo ≠ 0 then opt.def_cipher_algo
                   else opt.s2k_cipher_algo
    let s2kMode := if opt.rfc1991 then 0 else opt.s2k_mode
    let dekOk := match env.ptdKeylen with
                 | none => false
                 | some k => k != 0
    if mode && !dekOk then
      { rc := G10ERR_PASSPHRASE, events := [], statusEnd := false,
        outFate := .notOpened, inpFate := some true, dek := none,
        ptLen := none, ptNewCtb := none, dekFreed := true, s2kFreed := true }
    else if env.open_outfile_rc ≠ 0 then
      { rc := env.open_outfile_rc, events := [], statusEnd := false,
        outFate := .notOpened, inpFate := some false,
        dek := if mode then some ⟨dekAlgo, false⟩ else none,
        ptLen := none, ptNewCtb := none, dekFreed := true, s2kFreed := true }
    else
      let armorEv := if opt.armor then [Ev.armorPushed] else []
      let symkeyEv := if mode && !opt.rfc1991 then [Ev.symkeyPkt dekAlgo s2kMode]
                      else []
      let rcSym := if mode && !opt.rfc1991 then env.build_symkey_rc else 0
      let filesize :=
        literal_filesize opt.textmode opt.set_filesize filename env.filelength
      let newCtb := (filesize == 0) && !opt.rfc1991
      let cipherEv := if mode then [Ev.cipherPushed] else []
      let comprEv := if do_compress then [Ev.compressPushed] else []
      let bodyEv := if opt.no_literal then [Ev.rawCopy]
                    else [Ev.literalPkt filesize newCtb opt.textmode]
      let rcFinal := if opt.no_literal then
                       (if env.copy_ok then rcSym else G10ERR_WRITE_FILE)
                     else env.build_literal_rc
      { rc := rcFinal,
        events := armorEv ++ symkeyEv ++ cipherEv ++ comprEv ++ bodyEv,
        statusEnd := (rcFinal == 0) && mode,
        outFate := if rcFinal ≠ 0 then .canceled else .closed,
        inpFate := some true,
        dek := if mode then some ⟨dekAlgo, false⟩ else none,
        ptLen := if opt.no_literal then none else some filesize,
        ptNewCtb := if opt.no_literal then none else some newCtb,
        dekFreed := true, s2kFreed := true }

/-- Outcomes of the external collaborators during one `encode_crypt` run:
    `build_pk_list` (error code and the recipient list it produced),
    `is_file_compressed`, `iobuf_open`, `open_outfile`,
    `iobuf_get_filelength`, the per-recipient `pubkey_encrypt` /
    `build_packet` outcomes (indexed by position in the list), and the
    literal-packet / copy-loop outcomes. -/
structure CryptEnv where
  pks : List PKTpublicKey
  build_pk_list_rc : Nat
  file_compressed : Bool
  file_compressed_rc : Nat
  inp_ok : Bool
  open_outfile_rc : Nat
  filelength : Nat
  wrap : Nat → Nat
  bldpk : Nat → Nat
  build_literal_rc : Nat
  copy_ok : Bool

/-- Observable outcome of one `encode_crypt` run.  `pgp2After` is the value
    of `opt.pgp2` when the call returns; `pgp2SizeWarn` / `ideaWarn` record
    the two warning paths that clear it. -/
structure CryptResult where
  rc : Nat
  events : List Ev
  statusEnd : Bool
  outFate : OutFate
  inpClosed : Bool
  dek : Option DEKinfo
  ptLen : Option Nat
  ptNewCtb : Option Bool
  pgp2After : Bool
  pgp2SizeWarn : Bool
  ideaWarn : Bool
  dekFreed : Bool
  pkListReleased : Bool
  deriving DecidableEq

/-- The cipher-algorithm choice of `encode_crypt` (encode.c lines 334–355):
    explicit `--cipher-algo` override first; else the preference
    intersection; else the hard-coded 3DES fallback. -/
def crypt_dek_algo (opt : Opt) (pks : List PKTpublicKey) : Nat :=
  if opt.def_cipher_algo ≠ 0 then opt.def_cipher_algo
  else if select_algo_from_prefs pks (·.symPrefs) = -1 then CIPHER_ALGO_3DES
  else (select_algo_from_prefs pks (·.symPrefs)).toNat

/-- Function `encode_crypt` (encode.c lines 255–457): public-key encryption of
    `filename` to the recipients produced by `build_pk_list`.  The early
    `return rc` after a failed `build_pk_list` performs no cleanup; every
    other exit goes through the `leave` block (close input, cancel output on
    error / close it and write `STATUS_END_ENCRYPTION` on success, free the
    DEK, release the key list). -/
def encode_crypt (opt : Opt) (env : CryptEnv) (filename : Option String) :
    CryptResult :=
  let do_compress0 := opt.compress && !opt.rfc1991
  if env.build_pk_list_rc ≠ 0 then
    { rc := env.build_pk_list_rc, events := [], statusEnd := false,
      outFate := .notOpened, inpClosed := false, dek := none, ptLen := none,
      ptNewCtb := none, pgp2After := opt.pgp2, pgp2SizeWarn := false,
      ideaWarn := false, dekFreed := false, pkListReleased := false }
  else
    let pgp2ok := env.pks.all fun pk =>
      is_RSA pk.pubkey_algo && decide (pk.nbits ≤ 2048)
    let sizeWarn := opt.pgp2 && !pgp2ok
    let pgp2a := opt.pgp2 && pgp2ok
    let do_compress := if env.file_compressed then false else do_compress0
    if env.file_compressed_rc ≠ 0 then
      { rc := env.file_compressed_rc, events := [], statusEnd := false,
        outFate := .notOpened, inpClosed := false, dek := none, ptLen := none,
        ptNewCtb := none, pgp2After := pgp2a, pgp2SizeWarn := sizeWarn,
        ideaWarn := false, dekFreed := true, pkListReleased := true }
    else if !env.inp_ok then
      { rc := G10ERR_OPEN_FILE, events := [], statusEnd := false,
        outFate := .notOpened, inpClosed := false, dek := none, ptLen := none,
        ptNewCtb := none, pgp2After := pgp2a, pgp2SizeWarn := sizeWarn,
        ideaWarn := false, dekFreed := true, pkListReleased := true }
    else if env.open_outfile_rc ≠ 0 then
      { rc := env.open_outfile_rc, events := [], statusEnd := false,
        outFate := .notOpened, inpClosed := true, dek := none, ptLen := none,
        ptNewCtb := none, pgp2After := pgp2a, pgp2SizeWarn := sizeWarn,
        ideaWarn := false, dekFreed := true, pkListReleased := true }
    else
      let armorEv := if opt.armor then [Ev.armorPushed] else []
      let selSym := select_algo_from_prefs env.pks (·.symPrefs)
      let ideaW := opt.def_cipher_algo = 0 && selSym = -1 && pgp2a
      let pgp2b := if opt.def_cipher_algo = 0 && selSym = -1 then false
                   else pgp2a
      let d : DEKinfo :=
        ⟨crypt_dek_algo opt env.pks, select_mdc_from_pklist env.pks⟩
      let w := write_pubkey_enc_from_list env.wrap env.bldpk env.pks
      if w.1 ≠ 0 then
        { rc := w.1, events := armorEv ++ w.2, statusEnd := false,
          outFate := .canceled, inpClosed := true, dek := some d,
          ptLen := none, ptNewCtb := none, pgp2After := pgp2b,
          pgp2SizeWarn := sizeWarn, ideaWarn := ideaW, dekFreed := true,
          pkListReleased := true }
      else
        let filesize :=
          literal_filesize opt.textmode opt.set_filesize filename env.filelength
        let newCtb := (filesize == 0) && !opt.rfc1991
        let comprSel := select_algo_from_prefs env.pks (·.zipPrefs)
        let comprEv := if do_compress && comprSel ≠ 0 then [Ev.compressPushed]
                       else []
        let bodyEv := if opt.no_literal then [Ev.rawCopy]
                      else [Ev.literalPkt filesize newCtb opt.textmode]
        let rcBody := if opt.no_literal then
                        (if env.copy_ok then 0 else G10ERR_WRITE_FILE)
                      else env.build_literal_rc
        { rc := rcBody,
          events := armorEv ++ w.2 ++ [Ev.cipherPushed] ++ comprEv ++ bodyEv,
          statusEnd := rcBody == 0,
          outFate := if rcBody ≠ 0 then .canceled else .closed,
          inpClosed := true, dek := some d,
          ptLen := if opt.no_literal then none else some filesize,
          ptNewCtb := if opt.no_literal then none else some newCtb,
          pgp2After := pgp2b, pgp2SizeWarn := sizeWarn, ideaWarn := ideaW,
          dekFreed := true, pkListReleased := true }

/-- The mutable per-filter context of `encrypt_filter`
    (`encrypt_filter_context_t`): the deferred-initialization flag and the
    DEK fields it fills in on first flush. -/
structure EfxCtx where
  header_okay : Bool
  dek : Option DEKinfo
  deriving DecidableEq

/-- External-collaborator outcomes available to `encrypt_filter`. -/
structure EncFltEnv where
  pks : List PKTpublicKey
  wrap : Nat → Nat
  bldpk : Nat → Nat

/-- The cipher-algorithm choice of `encrypt_filter` (encode.c lines
    480–490): as in `encode_crypt`, but the no-common-preference fallback is
    the `DEFAULT_CIPHER_ALGO` constant (reachable there only with an empty
    key list, per the code comment). -/
def filter_dek_algo (opt : Opt) (pks : List PKTpublicKey) : Nat :=
  if opt.def_cipher_algo ≠ 0 then opt.def_cipher_algo
  else if select_algo_from_prefs pks (·.symPrefs) = -1 then DEFAULT_CIPHER_ALGO
  else (select_algo_from_prefs pks (·.symPrefs)).toNat

/-- One `IOBUFCTRL_FLUSH` call of `encrypt_filter` (encode.c lines 465–516):
    on the first flush (while `header_okay` is still clear) resolve the
    cipher algorithm and MDC mode, make the session key, write all
    pubkey-enc packets (aborting with that error code on failure, leaving
    `header_okay` clear), push the cipher filter, and only then write the
    flushed data.  Later flushes just write data.  `iobuf_write` is modelled
    as succeeding. -/
def encrypt_filter_flush (opt : Opt) (env : EncFltEnv) (efx : EfxCtx)
    (bufLen : Nat) : Nat × EfxCtx × List Ev :=
  if !efx.header_okay then
    let d : DEKinfo :=
      ⟨filter_dek_algo opt env.pks, select_mdc_from_pklist env.pks⟩
    let w := write_pubkey_enc_from_list env.wrap env.bldpk env.pks
    if w.1 ≠ 0 then (w.1, { efx with dek := some d }, w.2)
    else (0, { header_okay := true, dek := some d },
          w.2 ++ [Ev.cipherPushed, Ev.data bufLen])
  else (0, efx, [Ev.data bufLen])

/-- Drive `encrypt_filter` through a sequence of flushes (one buffer length
    per flush), stopping at the first failing flush, and collect the
    combined output trace. -/
def encrypt_filter_run (opt : Opt) (env : EncFltEnv) :
    EfxCtx → List Nat → Nat × EfxCtx × List Ev
  | efx, [] => (0, efx, [])
  | efx, b :: bs =>
    let r := encrypt_filter_flush opt env efx b
    if r.1 ≠ 0 then r
    else
      let rest := encrypt_filter_run opt env r.2.1 bs
      (rest.1, rest.2.1, r.2.2 ++ rest.2.2)

/- Concrete fixtures shared by the evaluation witnesses below. -/

/-- A baseline option set: binary mode, nothing special configured. -/
def optBase : Opt :=
  { compress := false, rfc1991 := false, textmode := false, armor := false,
    pgp2 := false, def_cipher_algo := 0, def_digest_algo := 0, s2k_mode := 3,
    s2k_digest_algo := 2, s2k_cipher_algo := 3, set_filename := none,
    set_filesize := 0, no_literal := false, throw_keyid := false,
    verbose := false }

/-- An ElGamal-encrypt recipient key, MDC-capable. -/
def pkA : PKTpublicKey :=
  { pubkey_algo := PUBKEY_ALGO_ELGAMAL_E, nbits := 2048, mdc_feature := true,
    symPrefs := [9, 3, 2], zipPrefs := [2, 1], keyid := 11 }

/-- A large RSA recipient key, MDC-capable. -/
def pkB : PKTpublicKey :=
  { pubkey_algo := PUBKEY_ALGO_RSA, nbits := 4096, mdc_feature := true,
    symPrefs := [3, 2], zipPrefs := [1], keyid := 22 }

/-- An all-successful `encode_crypt` environment over `[pkA, pkB]`. -/
def envCryptOk : CryptEnv :=
  { pks := [pkA, pkB], build_pk_list_rc := 0, file_compressed := false,
    file_compressed_rc := 0, inp_ok := true, open_outfile_rc := 0,
    filelength := 10, wrap := fun _ => 0, bldpk := fun _ => 0,
    build_literal_rc := 0, copy_ok := true }

/-- An all-successful `encode_simple` environment. -/
def envSimpleOk : SimpleEnv :=
  { file_compressed := false, file_compressed_rc := 0, inp_ok := true,
    ptdKeylen := some 24, open_outfile_rc := 0, filelength := 10,
    build_symkey_rc := 0, build_literal_rc := 0, copy_ok := true }

/-- Claim C1: `write_pubkey_enc_from_list` processes the recipient list
strictly in input order, emitting one pubkey-enc session-key packet per
recipient; at the first recipient whose key wrap (`pubkey_encrypt`) or
packet build fails it returns that primitive's error code immediately,
wrapping no later recipients; and when it fails, `encode_crypt` cancels the
output stream, so a single recipient's failure produces no finalized output
for any recipient. -/
theorem claim1_pubkey_fanout_abort :
    (∀ (wrap bld : Nat → Nat) (pks : List PKTpublicKey),
      (∀ i, i < pks.length → wrap i = 0 ∧ bld i = 0) →
      write_pubkey_enc_from_list wrap bld pks =
        (0, pks.map fun pk => Ev.pubkeyEnc pk.keyid pk.pubkey_algo))
    ∧
    (∀ (wrap bld : Nat → Nat) (pks : List PKTpublicKey) (k : Nat),
      k < pks.length →
      (∀ i, i < k → wrap i = 0 ∧ bld i = 0) →
      (if wrap k ≠ 0 then wrap k else bld k) ≠ 0 →
      write_pubkey_enc_from_list wrap bld pks =
        ((if wrap k ≠ 0 then wrap k else bld k),
         (pks.take k).map fun pk => Ev.pubkeyEnc pk.keyid pk.pubkey_algo))
    ∧
    (∀ (opt : Opt) (env : CryptEnv) (filename : Option String),
      env.build_pk_list_rc = 0 → env.file_compressed_rc = 0 →
      env.inp_ok = true → env.open_outfile_rc = 0 →
      (write_pubkey_enc_from_list env.wrap env.bldpk env.pks).1 ≠ 0 →
      (encode_crypt opt env filename).rc =
          (write_pubkey_enc_from_list env.wrap env.bldpk env.pks).1 ∧
        (encode_crypt opt env filename).outFate = .canceled ∧
        (encode_crypt opt env filename).statusEnd = false) := by
  refine ⟨fun wrap bld pks h => wpe_go_all_ok pks wrap bld h,
          fun wrap bld pks k hk hpre hfail =>
            wpe_go_first_fail pks wrap bld k hk hpre hfail,
          fun opt env filename h1 h2 h3 h4 hw => ?_⟩
  simp only [encode_crypt, h1, h2, h3, h4]
  simp [write_pubkey_enc_from_list] at hw ⊢
  simp [hw]

theorem claim1_witness :
    (write_pubkey_enc_from_list (fun _ => 0) (fun _ => 0) [pkA, pkB] =
      (0, [Ev.pubkeyEnc 11 PUBKEY_ALGO_ELGAMAL_E,
           Ev.pubkeyEnc 22 PUBKEY_ALGO_RSA]))
    ∧ (write_pubkey_enc_from_list (fun i => if i = 1 then 7 else 0)
        (fun _ => 0) [pkA, pkB] = (7, [Ev.pubkeyEnc 11 PUBKEY_ALGO_ELGAMAL_E]))
    ∧ ((encode_crypt optBase
          { envCryptOk with wrap := fun i => if i = 1 then 7 else 0 }
          none).outFate = .canceled) := by
  refine ⟨?_, ?_, ?_⟩
  · simpa using claim1_pubkey_fanout_abort.1 (fun _ => 0) (fun _ => 0)
      [pkA, pkB] (by decide)
  · simpa using claim1_pubkey_fanout_abort.2.1
      (fun i => if i = 1 then 7 else 0) (fun _ => 0) [pkA, pkB] 1
      (by decide) (by decide) (by decide)
  · exact (claim1_pubkey_fanout_abort.2.2 optBase
      { envCryptOk with wrap := fun i => if i = 1 then 7 else 0 } none
      rfl rfl rfl rfl (by decide)).2.1

lemma encrypt_filter_run_ready (opt : Opt) (env : EncFltEnv)
    (d : Option DEKinfo) (bs : List Nat) :
    encrypt_filter_run opt env ⟨true, d⟩ bs = (0, ⟨true, d⟩, bs.map Ev.data) := by
  induction bs with
  | nil => rfl
  | cons b bs ih => simp [encrypt_filter_run, encrypt_filter_flush, ih]

/-- Claim C2: over every sequence of flushes driven through
`encrypt_filter`, the deferred initialization (DEK generation, writing every
pubkey-enc session-key packet, pushing the cipher filter) happens exactly
once, during the first flush, and completes before the first byte of
application data is written; every subsequent flush only writes data; no
ciphertext-bound byte is emitted before the session-key packets. -/
theorem claim2_encrypt_filter_lazy_init (opt : Opt) (env : EncFltEnv)
    (b : Nat) (bs : List Nat)
    (h : ∀ i, i < env.pks.length → env.wrap i = 0 ∧ env.bldpk i = 0) :
    ∃ d : DEKinfo,
      encrypt_filter_run opt env ⟨false, none⟩ (b :: bs) =
        (0, ⟨true, some d⟩,
         ((env.pks.map fun pk => Ev.pubkeyEnc pk.keyid pk.pubkey_algo) ++
            [Ev.cipherPushed, Ev.data b]) ++ bs.map Ev.data) := by
  have hw := wpe_go_all_ok env.pks env.wrap env.bldpk h
  refine ⟨⟨filter_dek_algo opt env.pks, select_mdc_from_pklist env.pks⟩, ?_⟩
  simp [encrypt_filter_run, encrypt_filter_flush, write_pubkey_enc_from_list,
    hw, encrypt_filter_run_ready]

/-- Concrete fixture for the `encrypt_filter` claims. -/
def envEncFlt : EncFltEnv :=
  { pks := [pkA, pkB], wrap := fun _ => 0, bldpk := fun _ => 0 }

theorem claim2_witness :
    (∀ i, i < envEncFlt.pks.length →
      envEncFlt.wrap i = 0 ∧ envEncFlt.bldpk i = 0)
    ∧ ∃ d : DEKinfo,
      encrypt_filter_run optBase envEncFlt ⟨false, none⟩ (5 :: [3]) =
        (0, ⟨true, some d⟩,
         ((envEncFlt.pks.map fun pk => Ev.pubkeyEnc pk.keyid pk.pubkey_algo) ++
            [Ev.cipherPushed, Ev.data 5]) ++ [3].map Ev.data) :=
  ⟨by decide, claim2_encrypt_filter_lazy_init optBase envEncFlt 5 [3] (by decide)⟩

lemma select_algo_from_prefs_mem (pks : List PKTpublicKey)
    (prefOf : PKTpublicKey → List Nat) (a : Nat)
    (h : select_algo_from_prefs pks prefOf = (a : Int)) :
    ∀ pk ∈ pks, a ∈ prefOf pk := by
  cases pks with
  | nil =>
    exfalso
    simp only [select_algo_from_prefs] at h
    omega
  | cons pk rest =>
    simp only [select_algo_from_prefs] at h
    cases hf : (prefOf pk).find? fun x =>
        (pk :: rest).all fun q => (prefOf q).elem x with
    | none =>
      rw [hf] at h
      simp only [] at h
      exfalso; omega
    | some b =>
      rw [hf] at h
      simp only [] at h
      have hb : b = a := by exact_mod_cast h
      have hp := List.find?_some hf
      subst hb
      intro q hq
      have hall := List.all_eq_true.mp hp q hq
      exact List.mem_of_elem_eq_true hall

/-- Whenever `encode_crypt` gets as far as creating the session key, the
    recorded DEK is the selected cipher algorithm paired with the negotiated
    MDC flag. -/
lemma encode_crypt_dek_eq (opt : Opt) (env : CryptEnv)
    (filename : Option String)
    (h1 : env.build_pk_list_rc = 0) (h2 : env.file_compressed_rc = 0)
    (h3 : env.inp_ok = true) (h4 : env.open_outfile_rc = 0) :
    (encode_crypt opt env filename).dek =
      some ⟨crypt_dek_algo opt env.pks, select_mdc_from_pklist env.pks⟩ := by
  simp [encode_crypt, h1, h2, h3, h4]
  split <;> rfl

/-- Claim C4: the DEK's integrity-protection (MDC) flag is enabled iff every
recipient key in the list supports it; one non-supporting recipient disables
it for the whole message (all-or-nothing), both in `encode_crypt` and in
`encrypt_filter`'s deferred initialization. -/
theorem claim4_mdc_all_or_nothing :
    (∀ (opt : Opt) (env : CryptEnv) (filename : Option String),
      env.build_pk_list_rc = 0 → env.file_compressed_rc = 0 →
      env.inp_ok = true → env.open_outfile_rc = 0 →
      ∃ d : DEKinfo, (encode_crypt opt env filename).dek = some d ∧
        (d.use_mdc = true ↔ ∀ pk ∈ env.pks, pk.mdc_feature = true))
    ∧
    (∀ (opt : Opt) (env : EncFltEnv) (bufLen : Nat),
      ∃ d : DEKinfo,
        (encrypt_filter_flush opt env ⟨false, none⟩ bufLen).2.1.dek = some d ∧
        (d.use_mdc = true ↔ ∀ pk ∈ env.pks, pk.mdc_feature = true)) := by
  constructor
  · intro opt env filename h1 h2 h3 h4
    refine ⟨⟨crypt_dek_algo opt env.pks, select_mdc_from_pklist env.pks⟩,
      encode_crypt_dek_eq opt env filename h1 h2 h3 h4, ?_⟩
    simp [select_mdc_from_pklist, List.all_eq_true]
  · intro opt env bufLen
    refine ⟨⟨filter_dek_algo opt env.pks, select_mdc_from_pklist env.pks⟩,
      ?_, ?_⟩
    · simp only [encrypt_filter_flush]
      split
      · split <;> rfl
      · simp_all
    · simp [select_mdc_from_pklist, List.all_eq_true]

theorem claim4_witness :
    (∃ d : DEKinfo, (encode_crypt optBase envCryptOk (some "f")).dek = some d ∧
      (d.use_mdc = true ↔ ∀ pk ∈ envCryptOk.pks, pk.mdc_feature = true))
    ∧
    (∃ d : DEKinfo,
      (encrypt_filter_flush optBase envEncFlt ⟨false, none⟩ 5).2.1.dek = some d ∧
      (d.use_mdc = true ↔ ∀ pk ∈ envEncFlt.pks, pk.mdc_feature = true)) :=
  ⟨claim4_mdc_all_or_nothing.1 optBase envCryptOk (some "f") rfl rfl rfl rfl,
   claim4_mdc_all_or_nothing.2 optBase envEncFlt 5⟩

/-- Claim C5: for public-key encryption, an explicit cipher override is used
as the DEK algorithm exactly as configured; otherwise the DEK algorithm is
the spec-modelled most-preferred common algorithm of all recipients'
symmetric-cipher preferences (in particular it lies in every recipient's
preference list); and when no common algorithm exists the DEK falls back to
3DES instead of failing. -/
theorem claim5_cipher_selection (opt : Opt) (env : CryptEnv)
    (filename : Option String)
    (h1 : env.build_pk_list_rc = 0) (h2 : env.file_compressed_rc = 0)
    (h3 : env.inp_ok = true) (h4 : env.open_outfile_rc = 0) :
    (opt.def_cipher_algo ≠ 0 →
      (encode_crypt opt env filename).dek.map (·.algo) =
        some opt.def_cipher_algo)
    ∧ (opt.def_cipher_algo = 0 →
        ∀ a : Nat, select_algo_from_prefs env.pks (·.symPrefs) = (a : Int) →
          (encode_crypt opt env filename).dek.map (·.algo) = some a ∧
          ∀ pk ∈ env.pks, a ∈ pk.symPrefs)
    ∧ (opt.def_cipher_algo = 0 →
        select_algo_from_prefs env.pks (·.symPrefs) = -1 →
        (encode_crypt opt env filename).dek.map (·.algo) =
          some CIPHER_ALGO_3DES) := by
  refine ⟨?_, ?_, ?_⟩
  · intro hd
    rw [encode_crypt_dek_eq opt env filename h1 h2 h3 h4]
    simp [crypt_dek_algo, hd]
  · intro hd a ha
    have hne : select_algo_from_prefs env.pks (·.symPrefs) ≠ -1 := by
      rw [ha]; omega
    refine ⟨?_, select_algo_from_prefs_mem env.pks (·.symPrefs) a ha⟩
    rw [encode_crypt_dek_eq opt env filename h1 h2 h3 h4]
    simp [crypt_dek_algo, hd, hne, ha]
  · intro hd hsel
    rw [encode_crypt_dek_eq opt env filename h1 h2 h3 h4]
    simp [crypt_dek_algo, hd, hsel]

/-- A recipient key sharing no symmetric-cipher preference with `pkA`. -/
def pkC : PKTpublicKey :=
  { pubkey_algo := PUBKEY_ALGO_ELGAMAL_E, nbits := 1024, mdc_feature := false,
    symPrefs := [10], zipPrefs := [], keyid := 33 }

theorem claim5_witness :
    ((encode_crypt { optBase with def_cipher_algo := 4 } envCryptOk
        none).dek.map (·.algo) = some 4)
    ∧ ((encode_crypt optBase envCryptOk none).dek.map (·.algo) = some 3 ∧
       ∀ pk ∈ envCryptOk.pks, 3 ∈ pk.symPrefs)
    ∧ ((encode_crypt optBase { envCryptOk with pks := [pkA, pkC] }
        none).dek.map (·.algo) = some CIPHER_ALGO_3DES) := by
  refine ⟨?_, ?_, ?_⟩
  · exact (claim5_cipher_selection { optBase with def_cipher_algo := 4 }
      envCryptOk none rfl rfl rfl rfl).1 (by decide)
  · exact (claim5_cipher_selection optBase envCryptOk none
      rfl rfl rfl rfl).2.1 rfl 3 (by decide)
  · exact (claim5_cipher_selection optBase
      { envCryptOk with pks := [pkA, pkC] } none rfl rfl rfl rfl).2.2
      rfl (by decide)

/-- Claim C6: when pgp2 (legacy) mode is requested and some recipient key is
not an RSA key of at most 2048 bits, `encode_crypt` clears the pgp2 flag for
the remainder of the run, surfaces a warning, and nevertheless proceeds: the
check produces no error and (with every later step succeeding) the output is
finalized normally. -/
theorem claim6_pgp2_downgrade_warning (opt : Opt) (env : CryptEnv)
    (filename : Option String)
    (hpgp2 : opt.pgp2 = true)
    (hbad : ∃ pk ∈ env.pks, ¬(is_RSA pk.pubkey_algo = true ∧ pk.nbits ≤ 2048))
    (h1 : env.build_pk_list_rc = 0) (h2 : env.file_compressed_rc = 0)
    (h3 : env.inp_ok = true) (h4 : env.open_outfile_rc = 0)
    (h5 : (write_pubkey_enc_from_list env.wrap env.bldpk env.pks).1 = 0)
    (h6 : opt.no_literal = false) (h7 : env.build_literal_rc = 0) :
    (encode_crypt opt env filename).pgp2After = false ∧
    (encode_crypt opt env filename).pgp2SizeWarn = true ∧
    (encode_crypt opt env filename).rc = 0 ∧
    (encode_crypt opt env filename).outFate = .closed ∧
    (encode_crypt opt env filename).statusEnd = true := by
  have hall : (env.pks.all fun pk =>
      is_RSA pk.pubkey_algo && decide (pk.nbits ≤ 2048)) = false := by
    obtain ⟨pk, hmem, hpk⟩ := hbad
    rw [Bool.eq_false_iff]
    intro hc
    have := List.all_eq_true.mp hc pk hmem
    simp only [Bool.and_eq_true, decide_eq_true_eq] at this
    exact hpk this
  simp only [encode_crypt, h1, h2, h3, h4, hall]
  simp [h5, hpgp2, h6, h7]

theorem claim6_witness :
    ({ optBase with pgp2 := true }.pgp2 = true)
    ∧ (∃ pk ∈ envCryptOk.pks, ¬(is_RSA pk.pubkey_algo = true ∧ pk.nbits ≤ 2048))
    ∧ (encode_crypt { optBase with pgp2 := true } envCryptOk
        (some "f")).pgp2After = false
    ∧ (encode_crypt { optBase with pgp2 := true } envCryptOk
        (some "f")).rc = 0
    ∧ (encode_crypt { optBase with pgp2 := true } envCryptOk
        (some "f")).outFate = .closed := by
  have h := claim6_pgp2_downgrade_warning { optBase with pgp2 := true }
    envCryptOk (some "f") rfl (by decide) rfl rfl rfl rfl (by decide)
    rfl rfl
  exact ⟨rfl, by decide, h.1, h.2.2.1, h.2.2.2.1⟩

/-- Claim C8: in symmetric mode, when the passphrase-to-key primitive
returns no DEK at all or a DEK with key length zero, `encode_simple` fails
with the passphrase error code, has closed the input stream, and has not yet
opened any output destination, so nothing is written anywhere. -/
theorem claim8_passphrase_failure (opt : Opt) (env : SimpleEnv)
    (filename : Option String)
    (h2 : env.file_compressed_rc = 0) (h3 : env.inp_ok = true)
    (hp : env.ptdKeylen = none ∨ env.ptdKeylen = some 0) :
    (encode_simple opt env filename true).rc = G10ERR_PASSPHRASE ∧
    (encode_simple opt env filename true).inpFate = some true ∧
    (encode_simple opt env filename true).outFate = .notOpened ∧
    (encode_simple opt env filename true).events = [] := by
  have hdek : (match env.ptdKeylen with
      | none => false
      | some k => k != 0) = false := by
    rcases hp with h | h <;> simp [h]
  simp [encode_simple, h2, h3, hdek]

theorem claim8_witness :
    ((encode_simple optBase { envSimpleOk with ptdKeylen := none }
        (some "f") true).rc = G10ERR_PASSPHRASE ∧
      (encode_simple optBase { envSimpleOk with ptdKeylen := none }
        (some "f") true).outFate = .notOpened)
    ∧ ((encode_simple optBase { envSimpleOk with ptdKeylen := some 0 }
        none true).rc = G10ERR_PASSPHRASE ∧
      (encode_simple optBase { envSimpleOk with ptdKeylen := some 0 }
        none true).events = []) := by
  have ha := claim8_passphrase_failure optBase
    { envSimpleOk with ptdKeylen := none } (some "f") rfl rfl (Or.inl rfl)
  have hb := claim8_passphrase_failure optBase
    { envSimpleOk with ptdKeylen := some 0 } none rfl rfl (Or.inr rfl)
  exact ⟨⟨ha.1, ha.2.2.1⟩, ⟨hb.1, hb.2.2.2⟩⟩

/-- Claim C10: whenever the input is stdin or text-normalization mode is on,
the literal packet's declared length is the caller-supplied `--set-filesize`
override (0, i.e. indeterminate, when none is configured), even for a named
file whose length could be obtained; the fixed-length branch driven by the
actual file length applies only to named files in binary mode.  Holds for
both `encode_simple` and `encode_crypt`. -/
theorem claim10_stdin_textmode_length :
    (∀ (opt : Opt) (env : SimpleEnv) (filename : Option String) (mode : Bool),
      env.file_compressed_rc = 0 → env.inp_ok = true →
      (mode = false ∨ ∃ k, env.ptdKeylen = some k ∧ k ≠ 0) →
      env.open_outfile_rc = 0 → opt.no_literal = false →
      ((filename = none ∨ opt.textmode = true →
        (encode_simple opt env filename mode).ptLen = some opt.set_filesize)
       ∧ (∀ f, filename = some f → opt.textmode = false →
          (encode_simple opt env filename mode).ptLen =
            some (if env.filelength ≥ IOBUF_FILELENGTH_LIMIT then 0
                  else env.filelength))))
    ∧
    (∀ (opt : Opt) (env : CryptEnv) (filename : Option String),
      env.build_pk_list_rc = 0 → env.file_compressed_rc = 0 →
      env.inp_ok = true → env.open_outfile_rc = 0 →
      (write_pubkey_enc_from_list env.wrap env.bldpk env.pks).1 = 0 →
      opt.no_literal = false →
      ((filename = none ∨ opt.textmode = true →
        (encode_crypt opt env filename).ptLen = some opt.set_filesize)
       ∧ (∀ f, filename = some f → opt.textmode = false →
          (encode_crypt opt env filename).ptLen =
            some (if env.filelength ≥ IOBUF_FILELENGTH_LIMIT then 0
                  else env.filelength)))) := by
  constructor
  · intro opt env filename mode h2 h3 hm h4 hnl
    have hpt : (encode_simple opt env filename mode).ptLen =
        some (literal_filesize opt.textmode opt.set_filesize filename
              env.filelength) := by
      rcases hm with hm | ⟨k, hk, hkne⟩
      · subst hm
        simp [encode_simple, h2, h3, h4, hnl]
      · have hdek : (match env.ptdKeylen with
            | none => false
            | some k => k != 0) = true := by simp [hk, hkne]
        simp [encode_simple, h2, h3, h4, hnl, hdek]
    refine ⟨?_, ?_⟩
    · rw [hpt]
      rintro (hn | ht)
      · simp [hn, literal_filesize]
      · cases filename <;> simp [ht, literal_filesize]
    · intro f hf ht
      rw [hpt, hf]
      simp [ht, literal_filesize]
  · intro opt env filename h1 h2 h3 h4 h5 hnl
    have hpt : (encode_crypt opt env filename).ptLen =
        some (literal_filesize opt.textmode opt.set_filesize filename
              env.filelength) := by
      simp [encode_crypt, h1, h2, h3, h4, h5, hnl]
    refine ⟨?_, ?_⟩
    · rw [hpt]
      rintro (hn | ht)
      · simp [hn, literal_filesize]
      · cases filename <;> simp [ht, literal_filesize]
    · intro f hf ht
      rw [hpt, hf]
      simp [ht, literal_filesize]

theorem claim10_witness :
    ((encode_simple { optBase with textmode := true, set_filesize := 42 }
        envSimpleOk (some "f") false).ptLen = some 42)
    ∧ ((encode_crypt optBase envCryptOk none).ptLen = some 0)
    ∧ ((encode_crypt optBase envCryptOk (some "f")).ptLen = some 10) := by
  refine ⟨?_, ?_, ?_⟩
  · exact (claim10_stdin_textmode_length.1
      { optBase with textmode := true, set_filesize := 42 } envSimpleOk
      (some "f") false rfl rfl (Or.inl rfl) rfl rfl).1 (Or.inr rfl)
  · exact (claim10_stdin_textmode_length.2 optBase envCryptOk none
      rfl rfl rfl rfl (by decide) rfl).1 (Or.inl rfl)
  · have := (claim10_stdin_textmode_length.2 optBase envCryptOk (some "f")
      rfl rfl rfl rfl (by decide) rfl).2 "f" rfl rfl
    simpa using this

/-- Claim C9: in symmetric mode a session-key packet appears on the output
iff rfc1991 legacy compatibility is off; with rfc1991 enabled no symmetric
session-key packet is emitted at all and the message's packet sequence
begins directly with the literal-data packet (compression being disabled by
rfc1991 as well), so the key-derivation parameters travel out of band. -/
theorem claim9_rfc1991_no_symkey_packet (opt : Opt) (env : SimpleEnv)
    (filename : Option String)
    (h2 : env.file_compressed_rc = 0) (h3 : env.inp_ok = true)
    (hek : ∃ k, env.ptdKeylen = some k ∧ k ≠ 0)
    (h4 : env.open_outfile_rc = 0) :
    ((encode_simple opt env filename true).events.any (·.isSymkeyPkt) =
      !opt.rfc1991)
    ∧ (opt.rfc1991 = true → opt.no_literal = false →
      (encode_simple opt env filename true).events.filter (·.isPacket) =
        [Ev.literalPkt
          (literal_filesize opt.textmode opt.set_filesize filename
            env.filelength) false opt.textmode]) := by
  obtain ⟨k, hk, hkne⟩ := hek
  have hdek : (match env.ptdKeylen with
      | none => false
      | some k => k != 0) = true := by simp [hk, hkne]
  constructor
  · cases hr : opt.rfc1991 <;>
      cases ha : opt.armor <;>
        cases hn : opt.no_literal <;>
          cases hc : env.file_compressed <;>
            cases hcp : opt.compress <;>
              simp [encode_simple, h2, h3, h4, hdek, hr, ha, hn, hc, hcp,
                Ev.isSymkeyPkt]
  · intro hr hnl
    cases ha : opt.armor <;>
      cases hc : env.file_compressed <;>
        simp [encode_simple, h2, h3, h4, hdek, hr, hnl, ha, hc,
          Ev.isPacket, Ev.isSymkeyPkt]

theorem claim9_witness :
    ((encode_simple { optBase with rfc1991 := true } envSimpleOk
        (some "f") true).events.any (·.isSymkeyPkt) = false)
    ∧ ((encode_simple { optBase with rfc1991 := true } envSimpleOk
        (some "f") true).events.filter (·.isPacket) =
      [Ev.literalPkt 10 false false]) := by
  have h := claim9_rfc1991_no_symkey_packet { optBase with rfc1991 := true }
    envSimpleOk (some "f") rfl rfl ⟨24, rfl, by decide⟩ rfl
  refine ⟨by simpa using h.1, ?_⟩
  have hb := h.2 rfl rfl
  simpa [literal_filesize, IOBUF_FILELENGTH_LIMIT] using hb

/-- Counterexample to claim C3 as stated: with rfc1991 legacy mode active, a
named binary-mode file of length `IOBUF_FILELENGTH_LIMIT` (i.e. at the
very-large-file threshold) gets a literal packet declaring length 0 — but
with `new_ctb = false`, i.e. old-style indeterminate-length encoding, not
the claimed new-style partial-length encoding. -/
theorem claim3_counterexample :
    IOBUF_FILELENGTH_LIMIT ≤
      ({ envSimpleOk with filelength := IOBUF_FILELENGTH_LIMIT }
        : SimpleEnv).filelength
    ∧ (encode_simple { optBase with rfc1991 := true }
        { envSimpleOk with filelength := IOBUF_FILELENGTH_LIMIT }
        (some "big") true).ptLen = some 0
    ∧ (encode_simple { optBase with rfc1991 := true }
        { envSimpleOk with filelength := IOBUF_FILELENGTH_LIMIT }
        (some "big") true).ptNewCtb = some false := by
  decide

/-- Claim C3 as amended: for a named binary-mode input whose size is
obtainable, a file length at or above `IOBUF_FILELENGTH_LIMIT` makes the
literal packet declare length 0 (indeterminate encoding), with new-style
partial-length format exactly when rfc1991 legacy mode is off; a known
length below the threshold is declared as that fixed length (with old-style
CTB).  Holds for both `encode_simple` and `encode_crypt`. -/
theorem claim3_amended_length_policy :
    (∀ (opt : Opt) (env : SimpleEnv) (f : String) (mode : Bool),
      env.file_compressed_rc = 0 → env.inp_ok = true →
      (mode = false ∨ ∃ k, env.ptdKeylen = some k ∧ k ≠ 0) →
      env.open_outfile_rc = 0 → opt.textmode = false →
      opt.no_literal = false → env.filelength ≠ 0 →
      ((env.filelength ≥ IOBUF_FILELENGTH_LIMIT →
        (encode_simple opt env (some f) mode).ptLen = some 0 ∧
        (encode_simple opt env (some f) mode).ptNewCtb =
          some (!opt.rfc1991)) ∧
       (env.filelength < IOBUF_FILELENGTH_LIMIT →
        (encode_simple opt env (some f) mode).ptLen = some env.filelength ∧
        (encode_simple opt env (some f) mode).ptNewCtb = some false)))
    ∧
    (∀ (opt : Opt) (env : CryptEnv) (f : String),
      env.build_pk_list_rc = 0 → env.file_compressed_rc = 0 →
      env.inp_ok = true → env.open_outfile_rc = 0 →
      (write_pubkey_enc_from_list env.wrap env.bldpk env.pks).1 = 0 →
      opt.textmode = false → opt.no_literal = false → env.filelength ≠ 0 →
      ((env.filelength ≥ IOBUF_FILELENGTH_LIMIT →
        (encode_crypt opt env (some f)).ptLen = some 0 ∧
        (encode_crypt opt env (some f)).ptNewCtb = some (!opt.rfc1991)) ∧
       (env.filelength < IOBUF_FILELENGTH_LIMIT →
        (encode_crypt opt env (some f)).ptLen = some env.filelength ∧
        (encode_crypt opt env (some f)).ptNewCtb = some false))) := by
  constructor
  · intro opt env f mode h2 h3 hm h4 ht hnl hfl
    have hmode : (mode && !(match env.ptdKeylen with
        | none => false
        | some k => k != 0)) = false := by
      rcases hm with hm | ⟨k, hk, hkne⟩
      · simp [hm]
      · simp [hk, hkne]
    have hpt : (encode_simple opt env (some f) mode).ptLen =
        some (literal_filesize opt.textmode opt.set_filesize (some f)
          env.filelength) := by
      simp [encode_simple, h2, h3, h4, hnl, hmode]
    have hctb : (encode_simple opt env (some f) mode).ptNewCtb =
        some ((literal_filesize opt.textmode opt.set_filesize (some f)
          env.filelength == 0) && !opt.rfc1991) := by
      simp [encode_simple, h2, h3, h4, hnl, hmode]
    constructor
    · intro hge
      rw [hpt, hctb]
      simp [literal_filesize, ht, hge]
    · intro hlt
      rw [hpt, hctb]
      have hbe : (env.filelength == 0) = false := by simpa using hfl
      simp [literal_filesize, ht, Nat.not_le.mpr hlt, hbe]
  · intro opt env f h1 h2 h3 h4 h5 ht hnl hfl
    have hpt : (encode_crypt opt env (some f)).ptLen =
        some (literal_filesize opt.textmode opt.set_filesize (some f)
          env.filelength) := by
      simp [encode_crypt, h1, h2, h3, h4, h5, hnl]
    have hctb : (encode_crypt opt env (some f)).ptNewCtb =
        some ((literal_filesize opt.textmode opt.set_filesize (some f)
          env.filelength == 0) && !opt.rfc1991) := by
      simp [encode_crypt, h1, h2, h3, h4, h5, hnl]
    constructor
    · intro hge
      rw [hpt, hctb]
      simp [literal_filesize, ht, hge]
    · intro hlt
      rw [hpt, hctb]
      have hbe : (env.filelength == 0) = false := by simpa using hfl
      simp [literal_filesize, ht, Nat.not_le.mpr hlt, hbe]

theorem claim3_witness :
    ((encode_simple optBase
        { envSimpleOk with filelength := IOBUF_FILELENGTH_LIMIT }
        (some "big") true).ptLen = some 0 ∧
      (encode_simple optBase
        { envSimpleOk with filelength := IOBUF_FILELENGTH_LIMIT }
        (some "big") true).ptNewCtb = some true)
    ∧ ((encode_crypt optBase envCryptOk (some "f")).ptLen = some 10 ∧
       (encode_crypt optBase envCryptOk (some "f")).ptNewCtb = some false) := by
  constructor
  · have h := (claim3_amended_length_policy.1 optBase
      { envSimpleOk with filelength := IOBUF_FILELENGTH_LIMIT } "big" true
      rfl rfl (Or.inr ⟨24, rfl, by decide⟩) rfl rfl rfl (by decide)).1
      (le_refl _)
    simpa using h
  · exact (claim3_amended_length_policy.2 optBase envCryptOk "f"
      rfl rfl rfl rfl (by decide) rfl rfl (by decide)).2 (by decide)

/-- Counterexample to claim C7 as stated: in `encode_simple` (symmetric
mode, literal packaging on), a failing build of the symmetric session-key
packet (`build_packet` returning 5 after the output has been opened) is only
logged; the subsequent literal-packet build overwrites `rc`, so the run
returns 0 and the output is closed normally instead of being canceled with
the failing error code. -/
theorem claim7_counterexample :
    (encode_simple optBase { envSimpleOk with build_symkey_rc := 5 }
      (some "f") true).rc = 0
    ∧ (encode_simple optBase { envSimpleOk with build_symkey_rc := 5 }
      (some "f") true).outFate = .closed
    ∧ (encode_simple optBase { envSimpleOk with build_symkey_rc := 5 }
      (some "f") true).statusEnd = true := by
  decide

/-- Claim C7 as amended: in every run of `encode_simple` or `encode_crypt`
that reaches the opened output stream, a nonzero final error code cancels
(discards) the output and is returned, while a zero final code closes the
output normally and writes the end-of-encryption status event —
`encode_crypt` always, `encode_simple` only in symmetric mode (store-only
runs write no status event); the final code is the first pubkey-enc failure
in `encode_crypt`, else the literal-packet build result (which in
`encode_simple` supersedes a logged-but-not-propagated session-key-packet
build failure), or, with `--no-literal`, the copy-loop result (there a
session-key-packet failure does propagate); in all these runs the input
stream is closed and the DEK, key-list and packet structures are released. -/
theorem claim7_amended_cleanup :
    (∀ (opt : Opt) (env : SimpleEnv) (filename : Option String) (mode : Bool),
      env.file_compressed_rc = 0 → env.inp_ok = true →
      (mode = false ∨ ∃ k, env.ptdKeylen = some k ∧ k ≠ 0) →
      env.open_outfile_rc = 0 →
      (encode_simple opt env filename mode).inpFate = some true
      ∧ (encode_simple opt env filename mode).dekFreed = true
      ∧ (encode_simple opt env filename mode).s2kFreed = true
      ∧ ((encode_simple opt env filename mode).rc ≠ 0 →
          (encode_simple opt env filename mode).outFate = .canceled ∧
          (encode_simple opt env filename mode).statusEnd = false)
      ∧ ((encode_simple opt env filename mode).rc = 0 →
          (encode_simple opt env filename mode).outFate = .closed ∧
          (encode_simple opt env filename mode).statusEnd = mode)
      ∧ (opt.no_literal = false →
          (encode_simple opt env filename mode).rc = env.build_literal_rc)
      ∧ (opt.no_literal = true →
          (encode_simple opt env filename mode).rc =
            (if env.copy_ok then
              (if mode && !opt.rfc1991 then env.build_symkey_rc else 0)
             else G10ERR_WRITE_FILE)))
    ∧
    (∀ (opt : Opt) (env : CryptEnv) (filename : Option String),
      env.build_pk_list_rc = 0 → env.file_compressed_rc = 0 →
      env.inp_ok = true → env.open_outfile_rc = 0 →
      (encode_crypt opt env filename).inpClosed = true
      ∧ (encode_crypt opt env filename).dekFreed = true
      ∧ (encode_crypt opt env filename).pkListReleased = true
      ∧ ((encode_crypt opt env filename).rc ≠ 0 →
          (encode_crypt opt env filename).outFate = .canceled ∧
          (encode_crypt opt env filename).statusEnd = false)
      ∧ ((encode_crypt opt env filename).rc = 0 →
          (encode_crypt opt env filename).outFate = .closed ∧
          (encode_crypt opt env filename).statusEnd = true)
      ∧ ((write_pubkey_enc_from_list env.wrap env.bldpk env.pks).1 ≠ 0 →
          (encode_crypt opt env filename).rc =
            (write_pubkey_enc_from_list env.wrap env.bldpk env.pks).1)
      ∧ ((write_pubkey_enc_from_list env.wrap env.bldpk env.pks).1 = 0 →
          opt.no_literal = false →
          (encode_crypt opt env filename).rc = env.build_literal_rc)
      ∧ ((write_pubkey_enc_from_list env.wrap env.bldpk env.pks).1 = 0 →
          opt.no_literal = true →
          (encode_crypt opt env filename).rc =
            (if env.copy_ok then 0 else G10ERR_WRITE_FILE))) := by
  constructor
  · intro opt env filename mode h2 h3 hm h4
    have hmode : (mode && !(match env.ptdKeylen with
        | none => false
        | some k => k != 0)) = false := by
      rcases hm with hm | ⟨k, hk, hkne⟩
      · simp [hm]
      · simp [hk, hkne]
    refine ⟨?_, ?_, ?_, ?_, ?_, ?_, ?_⟩
    · simp [encode_simple, h2, h3, h4, hmode]
    · simp [encode_simple, h2, h3, h4, hmode]
    · simp [encode_simple, h2, h3, h4, hmode]
    · intro hrc
      simp [encode_simple, h2, h3, h4, hmode] at hrc ⊢
      constructor
      · split <;> simp_all
      · simp_all
    · intro hrc
      simp [encode_simple, h2, h3, h4, hmode] at hrc ⊢
      constructor
      · split <;> simp_all
      · intro hmm
        subst hmm
        simpa using hrc
    · intro hnl
      simp [encode_simple, h2, h3, h4, hmode, hnl]
    · intro hnl
      simp [encode_simple, h2, h3, h4, hmode, hnl]
  · intro opt env filename h1 h2 h3 h4
    refine ⟨?_, ?_, ?_, ?_, ?_, ?_, ?_, ?_⟩
    · simp [encode_crypt, h1, h2, h3, h4]
      split <;> rfl
    · simp [encode_crypt, h1, h2, h3, h4]
      split <;> rfl
    · simp [encode_crypt, h1, h2, h3, h4]
      split <;> rfl
    · intro hrc
      simp [encode_crypt, h1, h2, h3, h4] at hrc ⊢
      split at hrc <;> split <;> simp_all
    · intro hrc
      simp [encode_crypt, h1, h2, h3, h4] at hrc ⊢
      split at hrc <;> split <;> simp_all
    · intro hw
      simp [encode_crypt, h1, h2, h3, h4, hw]
    · intro hw hnl
      simp [encode_crypt, h1, h2, h3, h4, hw, hnl]
    · intro hw hnl
      simp [encode_crypt, h1, h2, h3, h4, hw, hnl]

theorem claim7_witness :
    ((encode_simple optBase { envSimpleOk with build_literal_rc := 9 }
        (some "f") true).rc = 9
      ∧ (encode_simple optBase { envSimpleOk with build_literal_rc := 9 }
        (some "f") true).outFate = .canceled
      ∧ (encode_simple optBase { envSimpleOk with build_literal_rc := 9 }
        (some "f") true).inpFate = some true)
    ∧ ((encode_crypt optBase envCryptOk (some "f")).rc = 0
      ∧ (encode_crypt optBase envCryptOk (some "f")).outFate = .closed
      ∧ (encode_crypt optBase envCryptOk (some "f")).statusEnd = true
      ∧ (encode_crypt optBase envCryptOk (some "f")).pkListReleased = true) := by
  constructor
  · have h := claim7_amended_cleanup.1 optBase
      { envSimpleOk with build_literal_rc := 9 } (some "f") true
      rfl rfl (Or.inr ⟨24, rfl, by decide⟩) rfl
    have hrc : (encode_simple optBase
        { envSimpleOk with build_literal_rc := 9 } (some "f") true).rc = 9 :=
      (h.2.2.2.2.2.1 rfl)
    exact ⟨hrc, ((h.2.2.2.1) (by rw [hrc]; decide)).1, h.1⟩
  · have h := claim7_amended_cleanup.2 optBase envCryptOk (some "f")
      rfl rfl rfl rfl
    have hrc : (encode_crypt optBase envCryptOk (some "f")).rc = 0 :=
      h.2.2.2.2.2.2.1 (by decide) rfl
    exact ⟨hrc, (h.2.2.2.2.1 hrc).1, (h.2.2.2.2.1 hrc).2, h.2.2.1⟩

end GnuPG
